import Mathlib

/-!
Shallow embedding of `anima/ui/version_creator.py` (the version-creator
dialog): the data model (users, groups, tasks, versions), the
publish / un-publish context-menu actions, the save-as / export-as flows,
the takes and previous-versions list computations, the representation
take-name convention, and the tree-item lookup.

GUI widgets are replaced by their observable inputs (selected row, checkbox
states, spin-box value) and outputs (lists displayed, error dialogs shown,
environment calls made).  The ORM database is a `List Version`; the
session is a pending/committed pair.  External collaborators
(`environment` adapters, `power_users_group_names`) are parameters.
-/

namespace Anima

/-- Mirror of stalker `Group`: an id and a name. -/
structure Group where
  id : Nat
  name : String
deriving DecidableEq

/-- Mirror of stalker `User`: an id, a name, and the groups the user belongs to. -/
structure User where
  id : Nat
  name : String
  groups : List Group
deriving DecidableEq

/-- Mirror of stalker `Task`: responsible users, resources, and whether the
task has child tasks.  In stalker `is_container` is "has children" and
`is_leaf` is its negation. -/
structure Task where
  id : Nat
  name : String
  responsible : List User
  resources : List User
  is_container : Bool
deriving DecidableEq

/-- stalker `Task.is_leaf`: a task with no children. -/
def Task.is_leaf (t : Task) : Bool := ! t.is_container

/-- Mirror of stalker `Version`: the task it belongs to, its take name,
version number, published flag, the ids of its input versions, and who
last updated it. -/
structure Version where
  id : Nat
  task : Task
  take_name : String
  version_number : Nat
  is_published : Bool
  inputs : List Nat
  updated_by : Option User
deriving DecidableEq

/-- `MainDialog.is_power_user` (version_creator.py:637-647): query all groups
whose name is in `power_users_group_names` (here the parameter
`power_names`, since that list lives outside this file) and return whether
any of them is among the user's groups. -/
def is_power_user (all_groups : List Group) (power_names : List String)
    (user : User) : Bool :=
  let power_users_groups := all_groups.filter (fun g => power_names.contains g.name)
  power_users_groups.any (fun g => user.groups.contains g)

/-- Observable outcome of a context-menu action on a version: the version's
resulting state, whether `DBSession.commit()` ran, and whether an error
dialog was shown. -/
structure CtxMenuOutcome where
  version : Version
  committed : Bool
  error_shown : Bool
deriving DecidableEq

/-- The `choice == "Publish"` branch of
`_show_previous_versions_tableWidget_context_menu` (version_creator.py:696-718):
if the logged-in user is neither in the task's responsible list nor a power
user, show an error and return; otherwise set `is_published = True`,
`updated_by = logged_in_user`, add and commit. -/
def publish_chosen (all_groups : List Group) (power_names : List String)
    (logged_in_user : User) (version : Version) : CtxMenuOutcome :=
  if logged_in_user ∉ version.task.responsible ∧
      is_power_user all_groups power_names logged_in_user = false then
    ⟨version, false, true⟩
  else
    ⟨{ version with is_published := true, updated_by := some logged_in_user },
      true, false⟩

/-- The query `Version.query.filter(Version.inputs.contains(version)).all()`
(version_creator.py:722-725): all versions in the database having the given
version among their inputs. -/
def versions_using (db : List Version) (version : Version) : List Version :=
  db.filter (fun w => w.inputs.contains version.id)

/-- The `choice == "Un-Publish"` branch of
`_show_previous_versions_tableWidget_context_menu` (version_creator.py:719-769):
first, if any version uses this version as an input, show an error and
return; then, if the logged-in user is not responsible, not a resource and
not a power user, show an error and return; otherwise set
`is_published = False`, `updated_by = logged_in_user`, add and commit. -/
def unpublish_chosen (db : List Version) (all_groups : List Group)
    (power_names : List String) (logged_in_user : User) (version : Version) :
    CtxMenuOutcome :=
  let versions_using_this_versions := versions_using db version
  if versions_using_this_versions.length ≠ 0 then
    ⟨version, false, true⟩
  else if logged_in_user ∉ version.task.responsible ∧
      logged_in_user ∉ version.task.resources ∧
      is_power_user all_groups power_names logged_in_user = false then
    ⟨version, false, true⟩
  else
    ⟨{ version with is_published := false, updated_by := some logged_in_user },
      true, false⟩

/-- Python list indexing `l[i]` for a possibly negative index, returning
`none` exactly where Python raises `IndexError`. -/
def pyIndex {α : Type} (l : List α) (i : Int) : Option α :=
  if 0 ≤ i then l[i.toNat]?
  else if i.natAbs ≤ l.length then l[l.length - i.natAbs]?
  else none

namespace VersionsTableWidget

/-- `VersionsTableWidget.current_version` (version_creator.py:136-145):
index the stored `versions` list with `currentRow()` (which is `-1` when no
row is selected), returning `None` on `IndexError`. -/
def current_version (versions : List Version) (currentRow : Int) :
    Option Version :=
  pyIndex versions currentRow

end VersionsTableWidget

/-- Result of `get_new_version` as observed by its callers: the `Version`
constructor may raise `TypeError`/`ValueError`, the method may return
`None` (no task selected or a `Project` selected), or it returns a new
version built from the UI fields. -/
inductive GetNewVersionResult
  | raises
  | noVersion
  | ok (v : Version)
deriving DecidableEq

/-- The `DBSession` as the save flow observes it: objects added but not yet
committed, and objects already committed. -/
structure Session where
  pending : List Version
  committed : List Version
deriving DecidableEq

/-- `DBSession.add`: stage an object in the session. -/
def Session.add (s : Session) (v : Version) : Session :=
  { s with pending := s.pending ++ [v] }

/-- `DBSession.rollback`: discard everything staged and not committed. -/
def Session.rollback (s : Session) : Session :=
  { s with pending := [] }

/-- `DBSession.commit`: persist everything staged. -/
def Session.commit (s : Session) : Session :=
  ⟨[], s.committed ++ s.pending⟩

/-- External inputs of `save_as_pushButton_clicked`: what `get_new_version`
produced, whether `self.environment` is set, whether the external-environment
factory found an environment (used only when `self.environment` is `None`),
the version currently open in the environment, the user's answer to the
"saving under different task" question (`true` = No), whether
`environment.save_as` raises `RuntimeError`/`PublishError`, and whether the
saved file exists on disk afterwards. -/
structure SaveAsInput where
  new_version_result : GetNewVersionResult
  has_environment : Bool
  external_env_found : Bool
  env_current_version : Option Version
  answer_no : Bool
  save_as_raises : Bool
  path_exists : Bool
deriving DecidableEq

/-- Observable outcome of `save_as_pushButton_clicked`: the session state on
return, whether `environment.save_as` was invoked, and whether an error
dialog was shown. -/
structure SaveAsOutcome where
  session : Session
  env_save_as_called : Bool
  error_shown : Bool
deriving DecidableEq

/-- The tail of `save_as_pushButton_clicked` from `environment.save_as`
onwards (version_creator.py:1613-1666): on `RuntimeError`/`PublishError`
show the error and roll back; otherwise add the new version when its file
exists, or show an error and roll back when it does not; finally commit. -/
def save_as_try_commit (save_as_raises path_exists : Bool)
    (new_version : Version) (s : Session) : SaveAsOutcome :=
  if save_as_raises then ⟨s.rollback, true, true⟩
  else if path_exists then ⟨(s.add new_version).commit, true, false⟩
  else ⟨(s.rollback).commit, true, true⟩

/-- The condition of the early `return` in the environment branch of
`save_as_pushButton_clicked` (version_creator.py:1589-1611): the
environment has a current version whose task differs from the new
version's task, and the user answered No to the confirmation question. -/
def different_task_answer_no (env_current_version : Option Version)
    (new_version : Version) (answer_no : Bool) : Bool :=
  match env_current_version with
  | some cv => ! decide (cv.task = new_version.task) && answer_no
  | none => false

/-- `save_as_pushButton_clicked` (version_creator.py:1537-1673): handle a
`get_new_version` exception (error + rollback) or `None`; reject a non-leaf
task (error + rollback); resolve the environment (roll back and return when
no external environment is found; return unchanged when the user answers No
to the different-task question); then run `environment.save_as` and the
add/commit tail. -/
def save_as_pushButton_clicked (inp : SaveAsInput) (s : Session) :
    SaveAsOutcome :=
  match inp.new_version_result with
  | .raises => ⟨s.rollback, false, true⟩
  | .noVersion => ⟨s, false, false⟩
  | .ok new_version =>
    if new_version.task.is_leaf = false then ⟨s.rollback, false, true⟩
    else if inp.has_environment = false ∧ inp.external_env_found = false then
      ⟨s.rollback, false, false⟩
    else if inp.has_environment = true ∧
        different_task_answer_no inp.env_current_version new_version
          inp.answer_no = true then
      ⟨s, false, false⟩
    else
      save_as_try_commit inp.save_as_raises inp.path_exists new_version s

/-- Observable outcome of `export_as_pushButton_clicked`: whether
`environment.export_as` was invoked and whether an error dialog was shown. -/
structure ExportAsOutcome where
  env_export_as_called : Bool
  error_shown : Bool
deriving DecidableEq

/-- `export_as_pushButton_clicked` (version_creator.py:1504-1535): return
when `get_new_version` gave nothing; reject a non-leaf task with an error;
otherwise call `environment.export_as` when an environment is set. -/
def export_as_pushButton_clicked (new_version : Option Version)
    (has_environment : Bool) : ExportAsOutcome :=
  match new_version with
  | none => ⟨false, false⟩
  | some nv =>
    if nv.task.is_leaf = false then ⟨false, true⟩
    else ⟨has_environment, false⟩

/-- Python `str.lower` on one character, for the ASCII range the take names
use. -/
def asciiLowerChar (c : Char) : Char :=
  if 'A' ≤ c ∧ c ≤ 'Z' then Char.ofNat (c.toNat + 32) else c

/-- Python `str.lower`. -/
def strLower (s : String) : String := ⟨s.data.map asciiLowerChar⟩

/-- Lexicographic comparison of character lists, the order Python uses when
comparing strings. -/
def lexLe : List Char → List Char → Bool
  | [], _ => true
  | _ :: _, [] => false
  | a :: as, b :: bs => if a < b then true else if a = b then lexLe as bs else false

/-- The comparison behind `sorted(takes, key=lambda x: x.lower())`
(version_creator.py:1085): compare lower-cased names. -/
def lowerLe (a b : String) : Prop :=
  lexLe (strLower a).data (strLower b).data = true

instance : DecidableRel lowerLe := fun a b =>
  if h : lexLe (strLower a).data (strLower b).data = true then .isTrue h
  else .isFalse h

/-- Python `pat in s` for strings: `pat` occurs as a contiguous substring. -/
def containsSub (pat : List Char) : List Char → Bool
  | [] => pat.isEmpty
  | c :: rest => pat.isPrefixOf (c :: rest) || containsSub pat rest

/-- Modelled from the spec: `Representation.repr_separator` from
`anima.repr`, which is not under src/.  The separator of the representation
take-name convention ("a named alternate form of an asset associated with a
take via naming convention"); the detection query at
version_creator.py:1780 hard-codes the pattern `take_name + '@%'`, so the
separator is `"@"`. -/
def repr_separator : String := "@"

/-- SQL `col.ilike(pat + '%')`: case-insensitive prefix match (take names
are assumed free of SQL wildcard characters). -/
def ilikeStartsWith (s pat : String) : Bool :=
  (strLower pat).data.isPrefixOf (strLower s).data

/-- SQL `col.ilike('%' + pat + '%')`: case-insensitive substring match
(take names are assumed free of SQL wildcard characters). -/
def ilikeContains (s pat : String) : Bool :=
  containsSub (strLower pat).data (strLower s).data

/-- What `get_task` can hand back from the tree selection: nothing, a
`Project`, or a `Task`. -/
inductive TreeEntity
  | project
  | task (t : Task)
deriving DecidableEq

/-- The takes list built by `tasks_treeView_changed` for a leaf task
(version_creator.py:1072-1085): the distinct take names of the task's
versions, with representation takes (names containing `repr_separator`)
filtered out unless the repr-as-separate-takes checkbox is checked, sorted
by lower-cased name. -/
def leaf_task_takes (db : List Version) (task : Task)
    (repr_as_separate_takes : Bool) : List String :=
  let takes :=
    ((db.filter (fun v => decide (v.task = task))).map
      (fun v => v.take_name)).dedup
  let takes :=
    if repr_as_separate_takes = false then
      takes.filter (fun take => ! containsSub repr_separator.data take.data)
    else takes
  List.insertionSort lowerLe takes

/-- Effect of `tasks_treeView_changed` (version_creator.py:1045-1090) on the
takes list widget, given the previous widget content: with no selection the
widget is untouched; a `Project` selection leaves it cleared; a container
task assigns the empty list; a leaf task assigns `leaf_task_takes`. -/
def tasks_treeView_changed (db : List Version) (selection : Option TreeEntity)
    (repr_as_separate_takes : Bool) (prev_take_names : List String) :
    List String :=
  match selection with
  | none => prev_take_names
  | some .project => []
  | some (.task task) =>
    if task.is_leaf = true then leaf_task_takes db task repr_as_separate_takes
    else []

/-- Descending order on versions by `version_number`, as produced by
`order_by(Version.version_number.desc())`. -/
def version_number_ge (a b : Version) : Prop :=
  b.version_number ≤ a.version_number

instance : DecidableRel version_number_ge := fun a b =>
  Nat.decLe b.version_number a.version_number

/-- `update_previous_versions_tableWidget` (version_creator.py:1384-1423):
the versions the table displays.  Nothing is displayed with no selection, a
`Project` selection, a container task or an empty take name; otherwise the
versions of the task and take (published only when the checkbox is
checked), ordered by version number descending, limited to
`version_count`, then reversed. -/
def update_previous_versions_tableWidget (db : List Version)
    (selection : Option TreeEntity) (current_take_name : String)
    (show_published_only : Bool) (version_count : Nat) : List Version :=
  match selection with
  | none => []
  | some .project => []
  | some (.task task) =>
    if task.is_container = true then []
    else if current_take_name = "" then []
    else
      let query := db.filter (fun v =>
        decide (v.task = task) && decide (v.take_name = current_take_name))
      let query :=
        if show_published_only then query.filter (fun v => v.is_published)
        else query
      ((List.insertionSort version_number_ge query).take version_count).reverse

/-- The query detecting that a version has representations
(version_creator.py:1778-1781): versions of the same task whose take name
is ILIKE `take_name + '@%'`. -/
def all_reprs (db : List Version) (previous_version : Version) :
    List Version :=
  db.filter (fun w => decide (w.task = previous_version.task) &&
    ilikeStartsWith w.take_name (previous_version.take_name ++ "@"))

/-- The per-representation query (version_creator.py:1795-1804): versions of
the same task whose take name is ILIKE
`'%' + take_name + repr_separator + repr_name + '%'`, ordered by version
number descending, first one. -/
def repr_version_query (db : List Version) (previous_version : Version)
    (repr_name : String) : Option Version :=
  (List.insertionSort version_number_ge
    (db.filter (fun w => decide (w.task = previous_version.task) &&
      ilikeContains w.take_name
        (previous_version.take_name ++ repr_separator ++ repr_name)))).head?

/-- The buttons of the "Which Repr.?" dialog with their attached
`repr_version` (version_creator.py:1785-1817): the base button carries the
selected version; one button per environment representation name for which
`repr_version_query` found a version. -/
def repr_buttons (db : List Version) (env_representations : List String)
    (previous_version : Version) : List Version :=
  previous_version ::
    env_representations.filterMap (repr_version_query db previous_version)

/-- Observable outcome of `reference_pushButton_clicked`: the error dialog
for an unpublished selection, no environment call, the dialog cancelled, or
`environment.reference` invoked with a version. -/
inductive RefOutcome
  | error_unpublished
  | no_environment
  | cancelled
  | referenced (v : Version)
deriving DecidableEq

/-- `reference_pushButton_clicked` (version_creator.py:1751-1837): reject an
unpublished selected version with a critical error; do nothing without an
environment; when the selection has representations, show the repr dialog
(`clicked` is the index of the clicked button, `none` for Cancel) and
substitute the clicked button's version; finally call
`environment.reference`. -/
def reference_pushButton_clicked (db : List Version)
    (env_representations : List String) (has_environment : Bool)
    (clicked : Option Nat) (previous_version : Version) : RefOutcome :=
  if previous_version.is_published = false then .error_unpublished
  else if has_environment = false then .no_environment
  else if (all_reprs db previous_version).length ≠ 0 then
    match clicked with
    | none => .cancelled
    | some i =>
      match (repr_buttons db env_representations previous_version)[i]? with
      | some w => .referenced w
      | none => .cancelled
  else .referenced previous_version

/-- An item of the tasks tree model, flattened by the recursive
`model.match` search: its display text and the entity attached to its
`task` attribute. -/
structure TreeItem where
  text : String
  task : Task
deriving DecidableEq

/-- `get_item_indices_containing_text` (version_creator.py:915-926): the
(recursively collected) model items whose display text equals the given
text. -/
def get_item_indices_containing_text (items : List TreeItem) (text : String) :
    List TreeItem :=
  items.filter (fun i => decide (i.text = text))

/-- `find_entity_item_in_tree_view` (version_creator.py:928-943): `None` for
a falsy entity; otherwise the first name-matching item whose attached task
equals the entity, or `None` when there is none. -/
def find_entity_item_in_tree_view (items : List TreeItem)
    (entity : Option Task) : Option TreeItem :=
  match entity with
  | none => none
  | some e =>
    (get_item_indices_containing_text items e.name).find?
      (fun i => decide (i.task = e))

/-- C1: choosing Publish commits the version with `is_published = True` and
`updated_by` the logged-in user exactly when the user is in the task's
responsible list or is a power user; otherwise an error dialog is shown and
the version is unchanged. -/
theorem C1_publish_iff_responsible_or_power (gs : List Group) (ps : List String)
    (u : User) (v : Version) :
    ((u ∈ v.task.responsible ∨ is_power_user gs ps u = true) →
      publish_chosen gs ps u v =
        ⟨{ v with is_published := true, updated_by := some u }, true, false⟩) ∧
    (¬ (u ∈ v.task.responsible ∨ is_power_user gs ps u = true) →
      publish_chosen gs ps u v = ⟨v, false, true⟩) := by
  constructor
  · intro h
    unfold publish_chosen
    rw [if_neg]
    push_neg
    intro hnr
    rcases h with h | h
    · exact absurd h hnr
    · simp [h]
  · intro h
    push_neg at h
    unfold publish_chosen
    rw [if_pos]
    exact ⟨h.1, by simpa using h.2⟩

/-- C1 witness: a responsible user publishes a version and the change is
committed. -/
theorem C1_witness :
    publish_chosen [] []
      ⟨1, "u", []⟩
      ⟨10, ⟨2, "t", [⟨1, "u", []⟩], [], false⟩, "Main", 1, false, [], none⟩ =
    ⟨⟨10, ⟨2, "t", [⟨1, "u", []⟩], [], false⟩, "Main", 1, true, [],
      some ⟨1, "u", []⟩⟩, true, false⟩ :=
  (C1_publish_iff_responsible_or_power [] [] ⟨1, "u", []⟩
    ⟨10, ⟨2, "t", [⟨1, "u", []⟩], [], false⟩, "Main", 1, false, [], none⟩).1
    (Or.inl (by decide))

/-- C2: choosing Un-Publish commits the version with `is_published = False`
and `updated_by` the logged-in user exactly when no version uses it as an
input and the user is responsible, a resource, or a power user; otherwise
an error dialog is shown and the version is unchanged (so it stays
published). -/
theorem C2_unpublish_iff_unused_and_permitted (db : List Version)
    (gs : List Group) (ps : List String) (u : User) (v : Version) :
    ((versions_using db v = [] ∧
        (u ∈ v.task.responsible ∨ u ∈ v.task.resources ∨
          is_power_user gs ps u = true)) →
      unpublish_chosen db gs ps u v =
        ⟨{ v with is_published := false, updated_by := some u }, true, false⟩) ∧
    (¬ (versions_using db v = [] ∧
        (u ∈ v.task.responsible ∨ u ∈ v.task.resources ∨
          is_power_user gs ps u = true)) →
      unpublish_chosen db gs ps u v = ⟨v, false, true⟩) := by
  constructor
  · rintro ⟨hempty, hperm⟩
    unfold unpublish_chosen
    rw [if_neg, if_neg]
    · push_neg
      intro hnr hns
      rcases hperm with h | h | h
      · exact absurd h hnr
      · exact absurd h hns
      · simp [h]
    · simp [hempty]
  · intro h
    by_cases hempty : versions_using db v = []
    · have hperm : ¬ (u ∈ v.task.responsible ∨ u ∈ v.task.resources ∨
          is_power_user gs ps u = true) := fun hp => h ⟨hempty, hp⟩
      push_neg at hperm
      unfold unpublish_chosen
      rw [if_neg, if_pos]
      · exact ⟨hperm.1, hperm.2.1, by simpa using hperm.2.2⟩
      · simp [hempty]
    · unfold unpublish_chosen
      rw [if_pos]
      simpa [List.length_eq_zero] using hempty

/-- C2 witness: a version used as input by another version cannot be
un-published even by a responsible user. -/
theorem C2_witness :
    unpublish_chosen
      [⟨11, ⟨3, "o", [], [], false⟩, "Main", 1, true, [10], none⟩] [] []
      ⟨1, "u", []⟩
      ⟨10, ⟨2, "t", [⟨1, "u", []⟩], [], false⟩, "Main", 1, true, [], none⟩ =
    ⟨⟨10, ⟨2, "t", [⟨1, "u", []⟩], [], false⟩, "Main", 1, true, [], none⟩,
      false, true⟩ :=
  (C2_unpublish_iff_unused_and_permitted
    [⟨11, ⟨3, "o", [], [], false⟩, "Main", 1, true, [10], none⟩] [] []
    ⟨1, "u", []⟩
    ⟨10, ⟨2, "t", [⟨1, "u", []⟩], [], false⟩, "Main", 1, true, [], none⟩).2
    (by intro h; exact absurd h.1 (by decide))

/-- C8: `current_version` applied at `currentRow = -1` returns the last
stored version (so `some` whenever the list is non-empty), and it returns
`none` exactly when the row index is out of range for the list in Python's
sense, in particular always on the empty list. -/
theorem C8_current_version_indexing (vs : List Version) (row : Int) :
    VersionsTableWidget.current_version vs (-1) = vs.getLast? ∧
    (VersionsTableWidget.current_version vs row = none ↔
      row < -(vs.length : Int) ∨ (vs.length : Int) ≤ row) := by
  constructor
  · unfold VersionsTableWidget.current_version pyIndex
    rw [if_neg (by omega)]
    rcases vs.eq_nil_or_concat with rfl | ⟨l, a, rfl⟩
    · simp
    · rw [if_pos (by simp)]
      simp [List.getLast?_concat]
  · unfold VersionsTableWidget.current_version pyIndex
    by_cases h0 : 0 ≤ row
    · rw [if_pos h0]
      rw [List.getElem?_eq_none_iff]
      omega
    · rw [if_neg h0]
      by_cases h1 : row.natAbs ≤ vs.length
      · rw [if_pos h1]
        rw [List.getElem?_eq_none_iff]
        omega
      · rw [if_neg h1]
        simp
        omega

/-- C3: `environment.save_as` and `environment.export_as` are invoked only
when the new version's task is a leaf task; for a non-leaf task each handler
shows the "Please select a leaf task!" error and returns without saving or
exporting, with `save_as` also rolling back the session. -/
theorem C3_leaf_task_guard (inp : SaveAsInput) (s : Session)
    (onv : Option Version) (env : Bool) :
    ((save_as_pushButton_clicked inp s).env_save_as_called = true →
      ∃ nv, inp.new_version_result = .ok nv ∧ nv.task.is_leaf = true) ∧
    (∀ nv, inp.new_version_result = .ok nv → nv.task.is_leaf = false →
      save_as_pushButton_clicked inp s = ⟨s.rollback, false, true⟩) ∧
    ((export_as_pushButton_clicked onv env).env_export_as_called = true →
      ∃ nv, onv = some nv ∧ nv.task.is_leaf = true) ∧
    (∀ nv, onv = some nv → nv.task.is_leaf = false →
      export_as_pushButton_clicked onv env = ⟨false, true⟩) := by
  refine ⟨?_, ?_, ?_, ?_⟩
  · intro hcalled
    cases hnv : inp.new_version_result with
    | raises => simp [save_as_pushButton_clicked, hnv] at hcalled
    | noVersion => simp [save_as_pushButton_clicked, hnv] at hcalled
    | ok nv =>
      refine ⟨nv, rfl, ?_⟩
      by_cases hleaf : nv.task.is_leaf = false
      · simp [save_as_pushButton_clicked, hnv, hleaf] at hcalled
      · simpa using hleaf
  · intro nv hnv hleaf
    simp [save_as_pushButton_clicked, hnv, hleaf]
  · intro hcalled
    cases onv with
    | none => simp [export_as_pushButton_clicked] at hcalled
    | some nv =>
      refine ⟨nv, rfl, ?_⟩
      by_cases hleaf : nv.task.is_leaf = false
      · simp [export_as_pushButton_clicked, hleaf] at hcalled
      · simpa using hleaf
  · intro nv hnv hleaf
    subst hnv
    simp [export_as_pushButton_clicked, hleaf]

/-- C3 witness: saving with a container (non-leaf) task rolls the session
back, shows the error, and never calls `environment.save_as`. -/
theorem C3_witness :
    save_as_pushButton_clicked
      ⟨.ok ⟨10, ⟨2, "t", [], [], true⟩, "Main", 1, false, [], none⟩,
        true, false, none, false, false, true⟩
      ⟨[], []⟩ =
    ⟨Session.rollback ⟨[], []⟩, false, true⟩ :=
  (C3_leaf_task_guard
      ⟨.ok ⟨10, ⟨2, "t", [], [], true⟩, "Main", 1, false, [], none⟩,
        true, false, none, false, false, true⟩
      ⟨[], []⟩ none false).2.1
    ⟨10, ⟨2, "t", [], [], true⟩, "Main", 1, false, [], none⟩ rfl (by decide)

/-- C10: the new version ends up committed exactly when `environment.save_as`
was reached and did not raise and the saved file exists; when `save_as`
raises the session is rolled back with nothing added; when the file is
missing the handler shows the error, rolls back, then commits, and the new
version is still not persisted. -/
theorem C10_saveas_persist_iff_success (inp : SaveAsInput) (s : Session)
    (nv : Version) (hok : inp.new_version_result = .ok nv)
    (hcomm : nv ∉ s.committed) :
    (nv ∈ (save_as_pushButton_clicked inp s).session.committed ↔
      ((save_as_pushButton_clicked inp s).env_save_as_called = true ∧
        inp.save_as_raises = false ∧ inp.path_exists = true)) ∧
    ((save_as_pushButton_clicked inp s).env_save_as_called = true →
      inp.save_as_raises = true →
      (save_as_pushButton_clicked inp s).session = s.rollback) ∧
    ((save_as_pushButton_clicked inp s).env_save_as_called = true →
      inp.save_as_raises = false → inp.path_exists = false →
      save_as_pushButton_clicked inp s = ⟨(s.rollback).commit, true, true⟩ ∧
        nv ∉ ((s.rollback).commit).committed) := by
  have hroll : nv ∉ ((s.rollback).commit).committed := by
    simp [Session.rollback, Session.commit, hcomm]
  by_cases hleaf : nv.task.is_leaf = false
  · simp [save_as_pushButton_clicked, hok, hleaf, Session.rollback, hcomm]
  · by_cases henv : inp.has_environment = false ∧ inp.external_env_found = false
    · simp [save_as_pushButton_clicked, hok, hleaf, henv, Session.rollback,
        hcomm]
    · by_cases hans : inp.has_environment = true ∧
          different_task_answer_no inp.env_current_version nv
            inp.answer_no = true
      · simp [save_as_pushButton_clicked, hok, hleaf, henv, hans, hcomm]
      · by_cases hraise : inp.save_as_raises = true
        · simp [save_as_pushButton_clicked, hok, hleaf, henv, hans,
            save_as_try_commit, hraise, Session.rollback, hcomm]
        · by_cases hpath : inp.path_exists = true
          · simp [save_as_pushButton_clicked, hok, hleaf, henv, hans,
              save_as_try_commit, hraise, hpath, Session.add, Session.commit]
          · simp [save_as_pushButton_clicked, hok, hleaf, henv, hans,
              save_as_try_commit, hraise, hpath, hroll]

/-- C10 witness: with a leaf task, an environment, a successful `save_as`
and an existing file, the new version is committed. -/
theorem C10_witness :
    ⟨10, ⟨2, "t", [], [], false⟩, "Main", 1, false, [], none⟩ ∈
      (save_as_pushButton_clicked
        ⟨.ok ⟨10, ⟨2, "t", [], [], false⟩, "Main", 1, false, [], none⟩,
          true, false, none, false, false, true⟩
        ⟨[], []⟩).session.committed :=
  ((C10_saveas_persist_iff_success
      ⟨.ok ⟨10, ⟨2, "t", [], [], false⟩, "Main", 1, false, [], none⟩,
        true, false, none, false, false, true⟩
      ⟨[], []⟩
      ⟨10, ⟨2, "t", [], [], false⟩, "Main", 1, false, [], none⟩
      rfl (by decide)).1).mpr (by decide)

theorem lexLe_total : ∀ as bs : List Char, lexLe as bs = true ∨ lexLe bs as = true
  | [], _ => Or.inl rfl
  | _ :: _, [] => Or.inr rfl
  | a :: as, b :: bs => by
    rcases lt_trichotomy a b with h | h | h
    · exact Or.inl (by simp [lexLe, h])
    · subst h
      rcases lexLe_total as bs with ih | ih
      · exact Or.inl (by simp [lexLe, ih])
      · exact Or.inr (by simp [lexLe, ih])
    · exact Or.inr (by simp [lexLe, h])

theorem lexLe_trans : ∀ as bs cs : List Char,
    lexLe as bs = true → lexLe bs cs = true → lexLe as cs = true
  | [], _, _, _, _ => rfl
  | _ :: _, [], _, h1, _ => by simp [lexLe] at h1
  | _ :: _, _ :: _, [], _, h2 => by simp [lexLe] at h2
  | a :: as, b :: bs, c :: cs, h1, h2 => by
    simp only [lexLe] at h1 h2 ⊢
    rcases lt_trichotomy a b with hab | hab | hab
    · rcases lt_trichotomy b c with hbc | hbc | hbc
      · simp [lt_trans hab hbc]
      · subst hbc; simp [hab]
      · rw [if_neg hbc.asymm, if_neg hbc.ne'] at h2
        simp at h2
    · subst hab
      rcases lt_trichotomy a c with hbc | hbc | hbc
      · simp [hbc]
      · subst hbc
        rw [if_neg (lt_irrefl a), if_pos rfl] at h1 h2 ⊢
        exact lexLe_trans as bs cs h1 h2
      · rw [if_neg hbc.asymm, if_neg hbc.ne'] at h2
        simp at h2
    · rw [if_neg hab.asymm, if_neg hab.ne'] at h1
      simp at h1

theorem lowerLe_isTotal : IsTotal String lowerLe :=
  ⟨fun a b => lexLe_total (strLower a).data (strLower b).data⟩

theorem lowerLe_isTrans : IsTrans String lowerLe :=
  ⟨fun _ _ _ h1 h2 => lexLe_trans _ _ _ h1 h2⟩

theorem version_number_ge_isTotal : IsTotal Version version_number_ge :=
  ⟨fun a b => (Nat.le_total b.version_number a.version_number).imp id id⟩

theorem version_number_ge_isTrans : IsTrans Version version_number_ge :=
  ⟨fun _ _ _ h1 h2 => Nat.le_trans h2 h1⟩

theorem leaf_task_takes_unchecked (db : List Version) (task : Task) :
    leaf_task_takes db task false =
    List.insertionSort lowerLe
      ((((db.filter (fun v => decide (v.task = task))).map
        (fun v => v.take_name)).dedup).filter
        (fun take => ! containsSub repr_separator.data take.data)) := rfl

theorem leaf_task_takes_checked (db : List Version) (task : Task) :
    leaf_task_takes db task true =
    List.insertionSort lowerLe
      (((db.filter (fun v => decide (v.task = task))).map
        (fun v => v.take_name)).dedup) := rfl

/-- C4: for a selected leaf task the takes list holds exactly the distinct
take names of that task's versions — with names containing the
representation separator removed when the repr-as-separate-takes checkbox
is unchecked — without duplicates and sorted ascending by lower-cased
name; a `Project` selection or a container task leaves the takes list
cleared. -/
theorem C4_takes_list (db : List Version) (task : Task) (sep_checked : Bool)
    (prev : List String) (hleaf : task.is_leaf = true) :
    (∀ x, x ∈ tasks_treeView_changed db (some (.task task)) sep_checked prev ↔
      ((∃ v ∈ db, v.task = task ∧ v.take_name = x) ∧
        (sep_checked = true ∨ containsSub repr_separator.data x.data = false))) ∧
    List.Sorted lowerLe
      (tasks_treeView_changed db (some (.task task)) sep_checked prev) ∧
    (tasks_treeView_changed db (some (.task task)) sep_checked prev).Nodup ∧
    tasks_treeView_changed db (some .project) sep_checked prev = [] ∧
    (∀ t2 : Task, t2.is_leaf = false →
      tasks_treeView_changed db (some (.task t2)) sep_checked prev = []) := by
  haveI := lowerLe_isTotal
  haveI := lowerLe_isTrans
  have hred : tasks_treeView_changed db (some (.task task)) sep_checked prev =
      leaf_task_takes db task sep_checked := by
    simp [tasks_treeView_changed, hleaf]
  refine ⟨?_, ?_, ?_, rfl, ?_⟩
  · intro x
    rw [hred]
    cases sep_checked with
    | false =>
      rw [leaf_task_takes_unchecked]
      simp only [List.mem_insertionSort, List.mem_filter, List.mem_dedup,
        List.mem_map, Bool.not_eq_true', decide_eq_true_eq]
      constructor
      · rintro ⟨⟨v, ⟨hv, hvt⟩, hvn⟩, hsep⟩
        exact ⟨⟨v, hv, hvt, hvn⟩, Or.inr hsep⟩
      · rintro ⟨⟨v, hv, hvt, hvn⟩, hsep⟩
        refine ⟨⟨v, ⟨hv, hvt⟩, hvn⟩, ?_⟩
        rcases hsep with hsep | hsep
        · exact absurd hsep (by simp)
        · exact hsep
    | true =>
      rw [leaf_task_takes_checked]
      simp only [List.mem_insertionSort, List.mem_dedup, List.mem_map,
        List.mem_filter, decide_eq_true_eq]
      constructor
      · rintro ⟨v, ⟨hv, hvt⟩, hvn⟩
        exact ⟨⟨v, hv, hvt, hvn⟩, Or.inl trivial⟩
      · rintro ⟨⟨v, hv, hvt, hvn⟩, _⟩
        exact ⟨v, ⟨hv, hvt⟩, hvn⟩
  · rw [hred]
    cases sep_checked with
    | false =>
      rw [leaf_task_takes_unchecked]
      exact List.sorted_insertionSort lowerLe _
    | true =>
      rw [leaf_task_takes_checked]
      exact List.sorted_insertionSort lowerLe _
  · rw [hred]
    cases sep_checked with
    | false =>
      rw [leaf_task_takes_unchecked]
      exact (List.perm_insertionSort lowerLe _).symm.nodup
        ((List.nodup_dedup _).filter _)
    | true =>
      rw [leaf_task_takes_checked]
      exact (List.perm_insertionSort lowerLe _).symm.nodup
        (List.nodup_dedup _)
  · intro t2 h2
    simp [tasks_treeView_changed, h2]

/-- C4 witness: a leaf task with takes named Main, main and `Main@GPU`,
with the checkbox unchecked, yields the representation take filtered out
and the rest sorted case-insensitively. -/
theorem C4_witness :
    "Main" ∈ tasks_treeView_changed
      [⟨1, ⟨2, "t", [], [], false⟩, "Main", 1, true, [], none⟩,
       ⟨2, ⟨2, "t", [], [], false⟩, "Main@GPU", 1, false, [], none⟩]
      (some (.task ⟨2, "t", [], [], false⟩)) false [] :=
  ((C4_takes_list
      [⟨1, ⟨2, "t", [], [], false⟩, "Main", 1, true, [], none⟩,
       ⟨2, ⟨2, "t", [], [], false⟩, "Main@GPU", 1, false, [], none⟩]
      ⟨2, "t", [], [], false⟩ false [] (by decide)).1 "Main").mpr
    ⟨⟨⟨1, ⟨2, "t", [], [], false⟩, "Main", 1, true, [], none⟩,
      by decide, by decide, by decide⟩, Or.inr (by decide)⟩

/-- C5: the representation machinery is pure take-name convention: a
version "has representations" exactly when some version of the same task
has a take name that case-insensitively starts with
`take_name + repr_separator`; the per-representation query yields a version
of the same task whose take name matches the `take + separator + name`
pattern and whose version number is maximal among the matches; and with the
checkbox unchecked a take whose name contains the separator is itself
dropped from the takes list as a representation take. -/
theorem C5_repr_naming_convention (db : List Version) (v : Version)
    (repr_name : String) :
    (all_reprs db v ≠ [] ↔ ∃ w ∈ db, w.task = v.task ∧
      ilikeStartsWith w.take_name (v.take_name ++ repr_separator) = true) ∧
    (∀ w, repr_version_query db v repr_name = some w →
      w ∈ db ∧ w.task = v.task ∧
      ilikeContains w.take_name
        (v.take_name ++ repr_separator ++ repr_name) = true ∧
      ∀ u ∈ db, u.task = v.task →
        ilikeContains u.take_name
          (v.take_name ++ repr_separator ++ repr_name) = true →
        u.version_number ≤ w.version_number) ∧
    (∀ task : Task, ∀ x ∈ leaf_task_takes db task false,
      containsSub repr_separator.data x.data = false) := by
  haveI := version_number_ge_isTotal
  haveI := version_number_ge_isTrans
  refine ⟨?_, ?_, ?_⟩
  · unfold all_reprs
    rw [Ne, List.eq_nil_iff_forall_not_mem]
    push_neg
    constructor
    · rintro ⟨w, hw⟩
      rcases List.mem_filter.mp hw with ⟨hmem, hp⟩
      simp only [Bool.and_eq_true, decide_eq_true_eq] at hp
      exact ⟨w, hmem, hp.1, by simpa [repr_separator] using hp.2⟩
    · rintro ⟨w, hw, ht, hp⟩
      refine ⟨w, List.mem_filter.mpr ⟨hw, ?_⟩⟩
      simp only [repr_separator] at hp
      simp [ht, hp]
  · intro w hw
    unfold repr_version_query at hw
    have hwmem : w ∈ db.filter (fun u => decide (u.task = v.task) &&
        ilikeContains u.take_name
          (v.take_name ++ repr_separator ++ repr_name)) :=
      (List.mem_insertionSort (r := version_number_ge)).mp
        (List.mem_of_mem_head? (by simp [hw]))
    have hprops := List.mem_filter.mp hwmem
    simp only [Bool.and_eq_true, decide_eq_true_eq] at hprops
    refine ⟨hprops.1, hprops.2.1, hprops.2.2, ?_⟩
    intro u hu hut hup
    have humem : u ∈ List.insertionSort version_number_ge
        (db.filter (fun u => decide (u.task = v.task) &&
          ilikeContains u.take_name
            (v.take_name ++ repr_separator ++ repr_name))) := by
      rw [List.mem_insertionSort]
      exact List.mem_filter.mpr ⟨hu, by simp [hut, hup]⟩
    have hsorted := List.sorted_insertionSort version_number_ge
      (db.filter (fun u => decide (u.task = v.task) &&
        ilikeContains u.take_name
          (v.take_name ++ repr_separator ++ repr_name)))
    cases hS : List.insertionSort version_number_ge
        (db.filter (fun u => decide (u.task = v.task) &&
          ilikeContains u.take_name
            (v.take_name ++ repr_separator ++ repr_name))) with
    | nil => rw [hS] at hw; simp at hw
    | cons a rest =>
      rw [hS] at hw hsorted humem
      simp only [List.head?_cons, Option.some.injEq] at hw
      rcases List.mem_cons.mp humem with rfl | humem
      · simp [hw]
      · calc u.version_number ≤ a.version_number :=
            (List.pairwise_cons.mp hsorted).1 u humem
          _ = w.version_number := by rw [hw]
  · intro task x hx
    rw [leaf_task_takes_unchecked, List.mem_insertionSort] at hx
    rcases List.mem_filter.mp hx with ⟨-, hp⟩
    simpa using hp

/-- C5 witness: a version with take name `Main@GPU` on the same task makes
the base take Main count as having representations. -/
theorem C5_witness :
    all_reprs
      [⟨2, ⟨2, "t", [], [], false⟩, "Main@GPU", 1, false, [], none⟩]
      ⟨1, ⟨2, "t", [], [], false⟩, "Main", 1, true, [], none⟩ ≠ [] :=
  (C5_repr_naming_convention
      [⟨2, ⟨2, "t", [], [], false⟩, "Main@GPU", 1, false, [], none⟩]
      ⟨1, ⟨2, "t", [], [], false⟩, "Main", 1, true, [], none⟩ "GPU").1.mpr
    ⟨⟨2, ⟨2, "t", [], [], false⟩, "Main@GPU", 1, false, [], none⟩,
      by decide, by decide, by decide⟩

/-- C6: the previous-versions table shows nothing with no selection, a
`Project` selection, a container task, or an empty current take name;
otherwise it shows versions of the selected task and take (published only
when the checkbox is checked), at most `count` of them, holding the highest
version numbers among the matching versions, in ascending version-number
order. -/
theorem C6_previous_versions_table (db : List Version) (take_name : String)
    (pub : Bool) (count : Nat) :
    update_previous_versions_tableWidget db none take_name pub count = [] ∧
    update_previous_versions_tableWidget db (some .project) take_name pub
      count = [] ∧
    (∀ t : Task, t.is_container = true →
      update_previous_versions_tableWidget db (some (.task t)) take_name pub
        count = []) ∧
    (∀ t : Task,
      update_previous_versions_tableWidget db (some (.task t)) "" pub
        count = []) ∧
    (∀ t : Task, t.is_container = false → take_name ≠ "" →
      (∀ w ∈ update_previous_versions_tableWidget db (some (.task t))
          take_name pub count,
        w ∈ db ∧ w.task = t ∧ w.take_name = take_name ∧
          (pub = true → w.is_published = true)) ∧
      List.Sorted (fun a b : Version =>
          a.version_number ≤ b.version_number)
        (update_previous_versions_tableWidget db (some (.task t)) take_name
          pub count) ∧
      (update_previous_versions_tableWidget db (some (.task t)) take_name pub
          count).length =
        min count (db.filter (fun v =>
          decide (v.task = t) && decide (v.take_name = take_name) &&
            (! pub || v.is_published))).length ∧
      (∀ v ∈ db, v.task = t → v.take_name = take_name →
        (pub = true → v.is_published = true) →
        v ∉ update_previous_versions_tableWidget db (some (.task t))
          take_name pub count →
        ∀ w ∈ update_previous_versions_tableWidget db (some (.task t))
          take_name pub count,
          v.version_number ≤ w.version_number)) := by
  haveI := version_number_ge_isTotal
  haveI := version_number_ge_isTrans
  refine ⟨rfl, rfl, ?_, ?_, ?_⟩
  · intro t ht
    simp [update_previous_versions_tableWidget, ht]
  · intro t
    cases htc : t.is_container with
    | true => simp [update_previous_versions_tableWidget, htc]
    | false => simp [update_previous_versions_tableWidget, htc]
  · intro t ht htn
    have hQ : (if pub then
        (db.filter (fun v => decide (v.task = t) &&
          decide (v.take_name = take_name))).filter (fun v => v.is_published)
      else
        db.filter (fun v => decide (v.task = t) &&
          decide (v.take_name = take_name))) =
        db.filter (fun v => decide (v.task = t) &&
          decide (v.take_name = take_name) && (! pub || v.is_published)) := by
      cases pub with
      | false =>
        rw [if_neg (by simp)]
        apply List.filter_congr
        intro x _
        simp
      | true =>
        rw [if_pos rfl, List.filter_filter]
        apply List.filter_congr
        intro x _
        cases x.is_published <;> simp
    have hred : update_previous_versions_tableWidget db (some (.task t))
        take_name pub count =
        ((List.insertionSort version_number_ge
          (db.filter (fun v => decide (v.task = t) &&
            decide (v.take_name = take_name) &&
            (! pub || v.is_published)))).take count).reverse := by
      simp only [update_previous_versions_tableWidget, ht,
        Bool.false_eq_true, if_neg, if_false]
      rw [if_neg htn, ← hQ]
    rw [hred]
    set Q := db.filter (fun v => decide (v.task = t) &&
      decide (v.take_name = take_name) && (! pub || v.is_published)) with hQdef
    set S := List.insertionSort version_number_ge Q with hSdef
    have hsorted : List.Sorted version_number_ge S :=
      List.sorted_insertionSort version_number_ge Q
    have hQmem : ∀ w, w ∈ Q ↔ (w ∈ db ∧ (w.task = t ∧ w.take_name = take_name ∧
        (pub = true → w.is_published = true))) := by
      intro w
      rw [hQdef, List.mem_filter]
      constructor
      · rintro ⟨hmem, hp⟩
        simp only [Bool.and_eq_true, Bool.or_eq_true, Bool.not_eq_true',
          decide_eq_true_eq] at hp
        refine ⟨hmem, hp.1.1, hp.1.2, fun hp2 => ?_⟩
        rcases hp.2 with h | h
        · rw [hp2] at h; exact absurd h (by simp)
        · exact h
      · rintro ⟨hmem, ht1, ht2, hp⟩
        refine ⟨hmem, ?_⟩
        simp only [Bool.and_eq_true, Bool.or_eq_true, Bool.not_eq_true',
          decide_eq_true_eq]
        refine ⟨⟨ht1, ht2⟩, ?_⟩
        cases hpub : pub with
        | false => exact Or.inl rfl
        | true => exact Or.inr (hp hpub)
    refine ⟨?_, ?_, ?_, ?_⟩
    · intro w hw
      rw [List.mem_reverse] at hw
      have hw2 : w ∈ S := List.mem_of_mem_take hw
      rw [hSdef, List.mem_insertionSort] at hw2
      exact (hQmem w).mp hw2
    · exact List.pairwise_reverse.mpr
        (List.Pairwise.sublist (List.take_sublist count S) hsorted)
    · rw [List.length_reverse, List.length_take, hSdef,
        List.length_insertionSort]
    · intro v hv hvt hvtn hvp hnotin w hw
      have hvQ : v ∈ Q := (hQmem v).mpr ⟨hv, hvt, hvtn, hvp⟩
      have hvS : v ∈ S := by rw [hSdef, List.mem_insertionSort]; exact hvQ
      rw [List.mem_reverse] at hnotin
      have hvS2 : v ∈ S.take count ++ S.drop count := by
        rw [List.take_append_drop count S]
        exact hvS
      have hvdrop : v ∈ S.drop count := by
        rcases List.mem_append.mp hvS2 with h | h
        · exact absurd h hnotin
        · exact h
      rw [List.mem_reverse] at hw
      have hsplit : List.Pairwise version_number_ge
          (S.take count ++ S.drop count) := by
        rw [List.take_append_drop count S]
        exact hsorted
      exact (List.pairwise_append.mp hsplit).2.2 w hw v hvdrop

/-- C6 witness: with three versions of take Main and a spin-box value of 2,
the table keeps the two highest version numbers. -/
theorem C6_witness :
    (update_previous_versions_tableWidget
      [⟨1, ⟨2, "t", [], [], false⟩, "Main", 1, true, [], none⟩,
       ⟨2, ⟨2, "t", [], [], false⟩, "Main", 2, false, [], none⟩,
       ⟨3, ⟨2, "t", [], [], false⟩, "Main", 3, false, [], none⟩]
      (some (.task ⟨2, "t", [], [], false⟩)) "Main" false 2).length =
    min 2 ([⟨1, ⟨2, "t", [], [], false⟩, "Main", 1, true, [], none⟩,
       ⟨2, ⟨2, "t", [], [], false⟩, "Main", 2, false, [], none⟩,
       ⟨3, ⟨2, "t", [], [], false⟩, "Main", 3, false, [], none⟩].filter
        (fun v : Version => decide (v.task = ⟨2, "t", [], [], false⟩) &&
          decide (v.take_name = "Main") && (! false || v.is_published))).length :=
  ((C6_previous_versions_table
      [⟨1, ⟨2, "t", [], [], false⟩, "Main", 1, true, [], none⟩,
       ⟨2, ⟨2, "t", [], [], false⟩, "Main", 2, false, [], none⟩,
       ⟨3, ⟨2, "t", [], [], false⟩, "Main", 3, false, [], none⟩]
      "Main" false 2).2.2.2.2 ⟨2, "t", [], [], false⟩ (by decide)
      (by decide)).2.2.1

theorem find?_split {α : Type} (p : α → Bool) :
    ∀ (l : List α) (a : α), l.find? p = some a →
      ∃ l1 l2, l = l1 ++ a :: l2 ∧ (∀ b ∈ l1, p b = false) ∧ p a = true
  | [], a, h => by simp at h
  | x :: xs, a, h => by
    cases hx : p x with
    | true =>
      rw [List.find?_cons_of_pos _ hx] at h
      obtain rfl : x = a := by simpa using h
      exact ⟨[], xs, rfl, by simp, hx⟩
    | false =>
      rw [List.find?_cons_of_neg _ (by simp [hx])] at h
      obtain ⟨l1, l2, hl, h1, h2⟩ := find?_split p xs a h
      refine ⟨x :: l1, l2, by rw [hl, List.cons_append], ?_, h2⟩
      intro b hb
      rcases List.mem_cons.mp hb with rfl | hb
      · exact hx
      · exact h1 b hb

/-- C7: `find_entity_item_in_tree_view` returns `None` for a falsy entity;
for an entity it returns `None` exactly when no item whose text equals the
entity's name has the entity as its task, and any returned item is the
first name-matching item whose task equals the entity. -/
theorem C7_find_entity_item (items : List TreeItem) (entity : Option Task) :
    (entity = none → find_entity_item_in_tree_view items entity = none) ∧
    (∀ e, entity = some e →
      ((find_entity_item_in_tree_view items entity = none ↔
        ∀ i ∈ items, i.text = e.name → i.task ≠ e) ∧
      (∀ it, find_entity_item_in_tree_view items entity = some it →
        it.text = e.name ∧ it.task = e ∧
        ∃ l1 l2,
          get_item_indices_containing_text items e.name = l1 ++ it :: l2 ∧
          ∀ j ∈ l1, j.task ≠ e))) := by
  constructor
  · rintro rfl
    rfl
  · rintro e rfl
    constructor
    · unfold find_entity_item_in_tree_view
      rw [List.find?_eq_none]
      constructor
      · intro h i hi htext
        have := h i (List.mem_filter.mpr ⟨hi, by simp [htext]⟩)
        simpa using this
      · intro h i hi
        rcases List.mem_filter.mp hi with ⟨hmem, htext⟩
        simp only [decide_eq_true_eq] at htext ⊢
        exact h i hmem htext
    · intro it hit
      unfold find_entity_item_in_tree_view at hit
      have htask : it.task = e := by
        simpa using List.find?_some hit
      have hmem : it ∈ get_item_indices_containing_text items e.name :=
        List.mem_of_find?_eq_some hit
      have htext : it.text = e.name := by
        simpa using (List.mem_filter.mp hmem).2
      obtain ⟨l1, l2, hl, h1, -⟩ := find?_split _ _ _ hit
      refine ⟨htext, htask, l1, l2, hl, ?_⟩
      intro j hj
      have := h1 j hj
      simpa using this

/-- C7 witness: with two items named alike, the lookup returns the one
whose attached task is the entity. -/
theorem C7_witness :
    find_entity_item_in_tree_view
      [⟨"t", ⟨3, "t", [], [], false⟩⟩, ⟨"t", ⟨2, "t", [], [], false⟩⟩]
      (some ⟨2, "t", [], [], false⟩) ≠ none :=
  fun h =>
    absurd (((C7_find_entity_item
        [⟨"t", ⟨3, "t", [], [], false⟩⟩, ⟨"t", ⟨2, "t", [], [], false⟩⟩]
        (some ⟨2, "t", [], [], false⟩)).2 ⟨2, "t", [], [], false⟩ rfl).1.mp h
      ⟨"t", ⟨2, "t", [], [], false⟩⟩ (by decide) (by decide)) (by decide)

/-- C9 counterexample: a published base version Main with an unpublished
representation version `Main@GPU`; choosing the GPU button makes
`environment.reference` receive the unpublished representation version, so
`reference_pushButton_clicked` does invoke the environment with a version
whose `is_published` is `False`. -/
theorem C9_counterexample :
    reference_pushButton_clicked
      [⟨1, ⟨2, "t", [], [], false⟩, "Main", 1, true, [], none⟩,
       ⟨2, ⟨2, "t", [], [], false⟩, "Main@GPU", 1, false, [], none⟩]
      ["GPU"] true (some 1)
      ⟨1, ⟨2, "t", [], [], false⟩, "Main", 1, true, [], none⟩ =
    RefOutcome.referenced
      ⟨2, ⟨2, "t", [], [], false⟩, "Main@GPU", 1, false, [], none⟩ ∧
    (⟨2, ⟨2, "t", [], [], false⟩, "Main@GPU", 1, false, [], none⟩ :
      Version).is_published = false := by
  constructor
  · decide
  · decide

/-- C9 (amended): the published-only guard applies to the selected version:
whenever the selected version is unpublished the handler shows the critical
error and returns before any environment call — the function consults no
user or group, so this holds regardless of group membership — and any
`environment.reference` call implies the selected version was published
(the version actually passed may still be an unpublished representation
version substituted by the repr dialog). -/
theorem C9_unpublished_selected_guard (db : List Version)
    (reprs : List String) (env : Bool) (clicked : Option Nat) (v : Version) :
    (v.is_published = false →
      reference_pushButton_clicked db reprs env clicked v =
        RefOutcome.error_unpublished) ∧
    (∀ w, reference_pushButton_clicked db reprs env clicked v =
        RefOutcome.referenced w → v.is_published = true) := by
  constructor
  · intro h
    simp [reference_pushButton_clicked, h]
  · intro w hw
    by_cases h : v.is_published = false
    · simp [reference_pushButton_clicked, h] at hw
    · simpa using h

/-- C9 witness: an unpublished selected version is rejected with the
critical error dialog. -/
theorem C9_witness :
    reference_pushButton_clicked [] [] true none
      ⟨1, ⟨2, "t", [], [], false⟩, "Main", 1, false, [], none⟩ =
    RefOutcome.error_unpublished :=
  (C9_unpublished_selected_guard [] [] true none
    ⟨1, ⟨2, "t", [], [], false⟩, "Main", 1, false, [], none⟩).1 rfl

end Anima
